import Mathlib

/-!
# Verification of the househunt identity/authentication core

Shallow embedding of the auth service (`internal/auth`: `RegisterAccount`,
`startActivation`, `inTx`), the transactional user store it depends on, and
the configuration helper `confSliceOf` from the server command, together with
proofs of the specified properties.

Go conventions are embedded as follows: a Go `error` result becomes an
`Option GoErr` (`none` = `nil`) or `Except GoErr α`; `errors.Join` becomes
`GoErr.joined`; pointer out-parameters become returned values; goroutines are
run inline, with the values handed to the error handler collected in a list;
Go strings are lists of characters where their length matters, plain `String`
elsewhere.

The store behind the `auth.Tx` interface lives in `internal/auth/db`, whose
implementation is not among the analysed sources; only the interface and the
store's test suite are. The store model is therefore modelled from the spec,
with the behaviour the repository's own tests pin down taking precedence
where the two differ (notably: which operation errors put a transaction into
the failed state, and how an empty filter dimension behaves). Timestamps come
from an injected clock yielding an increasing value per draw, exactly as the
test store's `nowFunc`; the model draws one value per timestamp-assigning
operation.
-/

/-- Error values of the embedded program. Sentinel errors of the repository
(`errorz.ErrNotFound`, `errorz.ErrConstraintViolated`, `errorz.ErrTxBadState`,
`auth.ErrDuplicateAccount`) are constructors; `joined` embeds `errors.Join`;
the remaining constructors stand for errors produced by collaborators
(password hashing, token generation, email sending) and by config parsing. -/
inductive GoErr where
  | notFound
  | constraintViolated
  | txBadState
  | duplicateAccount
  | parseElemErr (i : Nat)
  | rangeErr
  | hashErr (n : Nat)
  | genErr (n : Nat)
  | sendErr (n : Nat)
  | otherErr (n : Nat)
  | joined (a b : GoErr)
deriving DecidableEq, Repr

/-- Go strings are embedded as lists of characters; `len` is the list
length. `goSplit sep s` is Go's `strings.Split(s, sep)` for a one-character
separator: in particular `goSplit sep [] = [[]]`, one empty part. -/
def goSplit (sep : Char) : List Char → List (List Char)
  | [] => [[]]
  | c :: rest =>
    match goSplit sep rest with
    | [] => [[c]]
    | h :: t => if c = sep then [] :: h :: t else (c :: h) :: t

/-- `confSliceOf` from the server command (`confSliceOf[T]` in the main
package): splits the raw value `v` on commas, parses every element with
`elemFunc` (index `i` is reported in the parse error), appending each parsed
element to the existing contents of the target slice `tgt`; afterwards it
checks `len(v)` — the length of the raw string — against the inclusive range
`[minLen, maxLen]`. The result is the final contents of the target slice
together with the returned error (`none` = success); the target keeps the
appended elements even when a later step fails, mirroring the Go
out-parameter. -/
def confSliceOf {T : Type} (v : List Char) (tgt : List T)
    (elemFunc : List Char → Option T) (minLen maxLen : Nat) :
    List T × Option GoErr :=
  go tgt 0 (goSplit ',' v)
where
  go (acc : List T) (i : Nat) : List (List Char) → List T × Option GoErr
    | [] =>
      if v.length < minLen ∨ maxLen < v.length then
        (acc, some .rangeErr)
      else
        (acc, none)
    | elem :: rest =>
      match elemFunc elem with
      | none => (acc, some (.parseElemErr i))
      | some parsed => go (acc ++ [parsed]) (i + 1) rest

/-- Modelled from the spec: the persisted `auth.User` record. Email
addresses are already parsed/normalized strings; the encrypted-at-rest
representation and blind index are below the abstraction level of the store
contract (equality search is email equality). -/
structure User where
  id : Nat
  email : String
  passwordHash : String
  isActive : Bool
  createdAt : Nat
  updatedAt : Nat
deriving DecidableEq, Repr

/-- The token purpose constant `auth.TokenPurposeActivate` (purposes are
string-typed in the source; the tests assign the literal "other"). -/
def TokenPurposeActivate : String := "activate"

/-- Modelled from the spec: the persisted `auth.EmailToken` record. -/
structure EmailToken where
  id : Nat
  tokenHash : String
  userId : Nat
  email : String
  purpose : String
  createdAt : Nat
  consumedAt : Option Nat
deriving DecidableEq, Repr

/-- Modelled from the spec: the store's state — users and email tokens in
creation order (ids are assigned ascending from 1) plus the clock counter
feeding store-assigned timestamps. -/
structure DB where
  users : List User
  tokens : List EmailToken
  clock : Nat
deriving DecidableEq, Repr

/-- Modelled from the spec: a `Tx` in flight — the (uncommitted) state plus
the failed flag; Commit on a failed transaction reports
`TransactionBadState`. Which operation errors set the flag is pinned by the
tests: the `inTx` test helper commits successfully after create/update
errors such as non-zero id, duplicate email, missing foreign key and
not-found, while the `inTxBadState` helper demands a `TxBadState` commit
failure after an immutable-field `UpdateEmailToken` violation. -/
structure TxState where
  db : DB
  failed : Bool
deriving DecidableEq, Repr

/-- Modelled from the spec: `Tx.CreateUser` — rejects a non-zero id and a
duplicate email (any activation state) with `ConstraintViolated`; on success
assigns the next id and the created/updated timestamps into the record and
appends it. The updated record is returned in place of the Go pointer
mutation. -/
def TxState.createUser (tx : TxState) (u : User) : TxState × Except GoErr User :=
  if u.id != 0 then
    (tx, .error .constraintViolated)
  else if tx.db.users.any (fun w => w.email == u.email) then
    (tx, .error .constraintViolated)
  else
    let u' : User := { u with id := tx.db.users.length + 1,
                              createdAt := tx.db.clock, updatedAt := tx.db.clock }
    ({ tx with db := { tx.db with users := tx.db.users ++ [u'],
                                  clock := tx.db.clock + 1 } },
     .ok u')

/-- Modelled from the spec: `Tx.FindUserByEmail` — exact-match lookup,
`NotFound` when absent. -/
def TxState.findUserByEmail (tx : TxState) (e : String) : Except GoErr User :=
  match tx.db.users.find? (fun u => u.email == e) with
  | some u => .ok u
  | none => .error .notFound

/-- Modelled from the spec: `Tx.UpdateUser` — `NotFound` when the id does
not exist; `ConstraintViolated` when the new email collides with another
user; on success keeps `createdAt`, bumps `updatedAt` to the current clock
value and stores the record. -/
def TxState.updateUser (tx : TxState) (u : User) : TxState × Except GoErr User :=
  match tx.db.users.find? (fun w => w.id == u.id) with
  | none => (tx, .error .notFound)
  | some old =>
    if tx.db.users.any (fun w => w.id != u.id && w.email == u.email) then
      (tx, .error .constraintViolated)
    else
      let u' : User := { u with createdAt := old.createdAt, updatedAt := tx.db.clock }
      ({ tx with db := { tx.db with
            users := tx.db.users.map (fun w => if w.id == u.id then u' else w),
            clock := tx.db.clock + 1 } },
       .ok u')

/-- Modelled from the spec: `Tx.CreateEmailToken` — rejects a non-zero id
and a `userId` that references no existing user with `ConstraintViolated`;
on success assigns the next id and `createdAt` and appends the record. -/
def TxState.createEmailToken (tx : TxState) (t : EmailToken) :
    TxState × Except GoErr EmailToken :=
  if t.id != 0 then
    (tx, .error .constraintViolated)
  else if !(tx.db.users.any (fun u => u.id == t.userId)) then
    (tx, .error .constraintViolated)
  else
    let t' : EmailToken := { t with id := tx.db.tokens.length + 1,
                                    createdAt := tx.db.clock }
    ({ tx with db := { tx.db with tokens := tx.db.tokens ++ [t'],
                                  clock := tx.db.clock + 1 } },
     .ok t')

/-- Modelled from the spec: `Tx.UpdateEmailToken` — `NotFound` when the id
does not exist; changing any of the immutable fields `tokenHash`, `userId`,
`email`, `purpose` fails with `ConstraintViolated` and (per the tests' use
of `inTxBadState`) puts the transaction into the failed state; otherwise
only `consumedAt` is (re)stored. -/
def TxState.updateEmailToken (tx : TxState) (t : EmailToken) :
    TxState × Except GoErr EmailToken :=
  match tx.db.tokens.find? (fun w => w.id == t.id) with
  | none => (tx, .error .notFound)
  | some old =>
    if old.tokenHash != t.tokenHash || old.userId != t.userId ||
        old.email != t.email || old.purpose != t.purpose then
      ({ tx with failed := true }, .error .constraintViolated)
    else
      let t' : EmailToken := { t with createdAt := old.createdAt }
      ({ tx with db := { tx.db with
            tokens := tx.db.tokens.map (fun w => if w.id == t.id then t' else w) } },
       .ok t')

/-- Modelled from the spec: the `auth.UserFilter` query filter. The tests
pin that an empty `IDs`/`Emails` slice — the test "ok, all users, empty
slices" passes empty non-nil slices — imposes no constraint on its
dimension, so the model does not distinguish a nil slice from an empty one;
`isActive` is optional. -/
structure UserFilter where
  ids : List Nat
  emails : List String
  isActive : Option Bool
deriving DecidableEq, Repr

/-- Whether a user satisfies the AND-combination of the filter's non-empty
dimensions. -/
def userMatches (u : User) (f : UserFilter) : Bool :=
  (f.ids.isEmpty || f.ids.any (fun i => i == u.id)) &&
  (f.emails.isEmpty || f.emails.any (fun e => e == u.email)) &&
  (match f.isActive with
   | none => true
   | some b => u.isActive == b)

/-- Modelled from the spec: `Tx.FindUsers` — all users matching the filter,
in creation order; an empty result is a success, not an error. -/
def TxState.findUsers (tx : TxState) (f : UserFilter) : Except GoErr (List User) :=
  .ok (tx.db.users.filter (fun u => userMatches u f))

/-- Modelled from the spec: `Tx.FindEmailTokenByID` — `NotFound` when
absent. -/
def TxState.findEmailTokenByID (tx : TxState) (id : Nat) : Except GoErr EmailToken :=
  match tx.db.tokens.find? (fun w => w.id == id) with
  | some t => .ok t
  | none => .error .notFound

/-- Modelled from the spec: `Tx.Commit` — fails with `TransactionBadState`
on a failed transaction, otherwise makes the transaction's state durable. -/
def TxState.commit (tx : TxState) : Except GoErr DB :=
  if tx.failed then .error .txBadState else .ok tx.db

/-- Calls `Service.inTx` can make on the transaction. -/
inductive TxEvent where
  | beginTx
  | rollback
  | commit
deriving DecidableEq, Repr

/-- `Service.inTx`, abstractly: parametrized by the outcome of `BeginTx`,
of the transactional function `f`, and of the `Rollback`/`Commit` calls
(each `none` = `nil`). Returns the error `inTx` returns together with the
ordered list of calls it made. Mirrors the source: a `BeginTx` error is
returned as is; an error from `f` triggers `Rollback`, whose own error is
`errors.Join`-ed onto `f`'s; on success `Commit` is called and its error
returned. -/
def inTxTrace (beginRes : Option GoErr) (fRes : Option GoErr)
    (rollbackRes : Option GoErr) (commitRes : Option GoErr) :
    Option GoErr × List TxEvent :=
  match beginRes with
  | some e => (some e, [.beginTx])
  | none =>
    match fRes with
    | some e =>
      match rollbackRes with
      | some re => (some (.joined e re), [.beginTx, .rollback])
      | none => (some e, [.beginTx, .rollback])
    | none =>
      match commitRes with
      | some ce => (some ce, [.beginTx, .commit])
      | none => (none, [.beginTx, .commit])

/-- `Service.inTx` over the store model: `BeginTx` yields a fresh
transaction on the current state; an error from `f` rolls back (the
pre-transaction state is kept; rollback cannot fail in the model); on
success the transaction is committed and the committed state returned. -/
def runInTx {α : Type} (db : DB) (f : TxState → TxState × Except GoErr α) :
    DB × Except GoErr α :=
  match f { db := db, failed := false } with
  | (_, .error e) => (db, .error e)
  | (tx, .ok a) =>
    match tx.commit with
    | .error ce => (db, .error ce)
    | .ok db' => (db', .ok a)

/-- The transactional body of `Service.startActivation`: look the email up;
any hit — the activation state of the found user is not inspected (TODO in
source) — yields `ErrDuplicateAccount`; a non-`NotFound` lookup error is
passed through; otherwise create the user, then create the activation token
for the new user's id. Returns the stored user and token. -/
def activationTx (tx : TxState) (user : User) (tokenHash : String) :
    TxState × Except GoErr (User × EmailToken) :=
  match tx.findUserByEmail user.email with
  | .ok _ => (tx, .error .duplicateAccount)
  | .error lookupErr =>
    if lookupErr != .notFound then
      (tx, .error lookupErr)
    else
      match tx.createUser user with
      | (tx1, .error e) => (tx1, .error e)
      | (tx1, .ok u') =>
        match tx1.createEmailToken
            { id := 0, tokenHash := tokenHash, userId := u'.id,
              email := user.email, purpose := TokenPurposeActivate,
              createdAt := 0, consumedAt := none } with
        | (tx2, .error e) => (tx2, .error e)
        | (tx2, .ok t') => (tx2, .ok (u', t'))

/-- An invocation of the email service's `Send`: template name, recipient,
and the template data (the token id and the raw token). -/
structure EmailMsg where
  template : String
  recipient : String
  tokenID : Nat
  rawToken : String
deriving DecidableEq, Repr

/-- Outcome of one `startActivation` run: the resulting store state, the
returned error (`none` = `nil`) and the `Send` invocations made. -/
structure ActivationResult where
  db : DB
  ret : Option GoErr
  sent : List EmailMsg
deriving DecidableEq, Repr

/-- `Service.startActivation`: generate a token and hash it (both fallible,
parametrized by their outcomes); run the transactional body through `inTx`;
only after a successful commit call `Send` with the token id and the RAW
token (the store only ever saw the hash); a `Send` failure is returned but
leaves the committed state untouched. -/
def startActivation (db : DB) (user : User)
    (genRes : Except GoErr String)
    (hashRes : String → Except GoErr String)
    (sendRes : EmailMsg → Option GoErr) : ActivationResult :=
  match genRes with
  | .error e => ⟨db, some e, []⟩
  | .ok token =>
    match hashRes token with
    | .error e => ⟨db, some e, []⟩
    | .ok tokenHash =>
      match runInTx db (fun tx => activationTx tx user tokenHash) with
      | (dbAfter, .error e) => ⟨dbAfter, some e, []⟩
      | (dbAfter, .ok (_, t')) =>
        let msg : EmailMsg := ⟨"account-activation", user.email, t'.id, token⟩
        match sendRes msg with
        | some e => ⟨dbAfter, some e, [msg]⟩
        | none => ⟨dbAfter, none, [msg]⟩

/-- Outcome of one `Service.RegisterAccount` call: the resulting store
state, the error returned to the caller, the errors handed to the injected
error handler, and the `Send` invocations made. -/
structure RegisterResult where
  db : DB
  ret : Option GoErr
  handled : List GoErr
  sent : List EmailMsg
deriving DecidableEq, Repr

/-- The user record `RegisterAccount` builds for the credentials: zero id,
the credentials' email, the password hash, inactive, zero-valued
timestamps. -/
def registerUser (credsEmail pwdHash : String) : User :=
  { id := 0, email := credsEmail, passwordHash := pwdHash,
    isActive := false, createdAt := 0, updatedAt := 0 }

/-- `Service.RegisterAccount`: hash the password synchronously — a hashing
error is returned to the caller and nothing else happens; otherwise the
goroutine running `startActivation` (executed inline here) is spawned, any
error it produces goes to the injected error handler, and the caller gets
`nil` unconditionally. -/
def RegisterAccount (db : DB) (credsEmail : String)
    (pwdHashRes : Except GoErr String)
    (genRes : Except GoErr String)
    (hashRes : String → Except GoErr String)
    (sendRes : EmailMsg → Option GoErr) : RegisterResult :=
  match pwdHashRes with
  | .error e => ⟨db, some e, [], []⟩
  | .ok pwdHash =>
    let r := startActivation db (registerUser credsEmail pwdHash) genRes hashRes sendRes
    ⟨r.db, none, r.ret.toList, r.sent⟩

/-- The user record as persisted by a fresh activation run on `db`. -/
def activatedUser (db : DB) (user : User) : User :=
  { user with id := db.users.length + 1, createdAt := db.clock, updatedAt := db.clock }

/-- The activation token as persisted by a fresh activation run on `db`. -/
def activationToken (db : DB) (user : User) (th : String) : EmailToken :=
  { id := db.tokens.length + 1, tokenHash := th, userId := db.users.length + 1,
    email := user.email, purpose := TokenPurposeActivate,
    createdAt := db.clock + 1, consumedAt := none }

/-- The store state after a fresh activation run on `db` committed. -/
def activatedDB (db : DB) (user : User) (th : String) : DB :=
  { users := db.users ++ [activatedUser db user],
    tokens := db.tokens ++ [activationToken db user th],
    clock := db.clock + 2 }

/-- Sample data: an inactive persisted user. -/
def aliceInactive : User :=
  { id := 1, email := "alice@example.com", passwordHash := "ph1",
    isActive := false, createdAt := 0, updatedAt := 0 }

/-- Sample data: a store holding only the inactive user. -/
def dbWithAlice : DB := { users := [aliceInactive], tokens := [], clock := 1 }

/-- Sample data: the empty store. -/
def emptyDB : DB := { users := [], tokens := [], clock := 0 }

/-- Sample data: a not-yet-persisted registration user record. -/
def bobFresh : User :=
  { id := 0, email := "bob@example.com", passwordHash := "ph2",
    isActive := false, createdAt := 0, updatedAt := 0 }

/-- Sample data: a not-yet-persisted user with the inactive user's email. -/
def aliceFresh : User :=
  { id := 0, email := "alice@example.com", passwordHash := "ph3",
    isActive := false, createdAt := 0, updatedAt := 0 }

/-- Sample data: a persisted activation token for the sample user. -/
def aliceToken : EmailToken :=
  { id := 1, tokenHash := "th", userId := 1, email := "alice@example.com",
    purpose := TokenPurposeActivate, createdAt := 1, consumedAt := none }

/-- Sample data: a store holding the inactive user and their token. -/
def dbWithToken : DB := { users := [aliceInactive], tokens := [aliceToken], clock := 2 }

/-- The user record as persisted by a successful `CreateUser` on `tx`. -/
def createdUser (tx : TxState) (u : User) : User :=
  { u with id := tx.db.users.length + 1,
           createdAt := tx.db.clock, updatedAt := tx.db.clock }

/-- The token record as persisted by a successful `CreateEmailToken` on `tx`. -/
def createdToken (tx : TxState) (t : EmailToken) : EmailToken :=
  { t with id := tx.db.tokens.length + 1, createdAt := tx.db.clock }

/-- The user record as persisted by a successful `UpdateUser`: the passed
record with `createdAt` kept from the stored row and `updatedAt` bumped to
the current clock value. -/
def updatedUser (tx : TxState) (u old : User) : User :=
  { u with createdAt := old.createdAt, updatedAt := tx.db.clock }

theorem confSliceOf_go_all_ok {T : Type} (v : List Char) (tgt : List T)
    (elemFunc : List Char → Option T) (minLen maxLen : Nat)
    (parts : List (List Char)) (i : Nat)
    (h : ∀ p ∈ parts, (elemFunc p).isSome) :
    confSliceOf.go v elemFunc minLen maxLen tgt i parts =
      (tgt ++ parts.filterMap elemFunc,
        if v.length < minLen ∨ maxLen < v.length then some .rangeErr else none) := by
  induction parts generalizing tgt i with
  | nil =>
    simp only [confSliceOf.go, List.filterMap_nil, List.append_nil]
    split <;> rfl
  | cons p rest ih =>
    have hp : (elemFunc p).isSome := h p (List.mem_cons_self p rest)
    obtain ⟨x, hx⟩ := Option.isSome_iff_exists.mp hp
    have hrest : ∀ q ∈ rest, (elemFunc q).isSome := fun q hq => h q (List.mem_cons_of_mem p hq)
    simp [confSliceOf.go, hx, ih _ _ hrest, List.filterMap_cons]

/-- C10: `confSliceOf` validates the character length of the raw
comma-separated string, not the number of parsed elements, against
`[minLen, maxLen]`, and appends the parsed elements to whatever the target
slice already holds: whenever every comma-separated part of `v` parses, the
result is `tgt ++ parsed-parts`, with success exactly when
`minLen ≤ len(v) ≤ maxLen` — independent of how many elements were produced.
In particular a single element whose text is at least `minLen` characters
long passes a minimum of 2. -/
theorem confSliceOf_checks_string_length {T : Type} (v : List Char) (tgt : List T)
    (elemFunc : List Char → Option T) (minLen maxLen : Nat)
    (h : ∀ p ∈ goSplit ',' v, (elemFunc p).isSome) :
    confSliceOf v tgt elemFunc minLen maxLen =
      ((tgt ++ (goSplit ',' v).filterMap elemFunc),
        if v.length < minLen ∨ maxLen < v.length then some .rangeErr else none) := by
  unfold confSliceOf
  exact confSliceOf_go_all_ok v tgt elemFunc minLen maxLen (goSplit ',' v) 0 h

/-- Witness for C10: the single-element input "abc" (3 characters, one
comma-separated part) passes a minimum length of 2 and appends its one
parsed element (here, the part's length) to the pre-existing contents of the
target slice. -/
theorem confSliceOf_checks_string_length_witness :
    confSliceOf (['a', 'b', 'c']) ([7] : List Nat) (fun s => some s.length) 2 100 =
      ([7, 3], none) := by
  have h := confSliceOf_checks_string_length (['a', 'b', 'c']) ([7] : List Nat)
    (fun s => some s.length) 2 100 (by decide)
  simpa using h

/-- C4: for every transactional function run through `Service.inTx`: when
the function fails, the helper's calls after `BeginTx` are exactly one
`Rollback` (no `Commit`) before the error is returned, and a `Rollback`
failure is `errors.Join`-ed onto the function's error rather than
discarded; when the function succeeds, the calls are exactly one `Commit`,
whose error, if any, is returned. -/
theorem inTx_rollback_and_commit (rollbackRes commitRes : Option GoErr) :
    (∀ fe : GoErr,
      (inTxTrace none (some fe) rollbackRes commitRes).2 = [.beginTx, .rollback] ∧
      (inTxTrace none (some fe) rollbackRes commitRes).1 =
        some (match rollbackRes with
              | some re => GoErr.joined fe re
              | none => fe)) ∧
    ((inTxTrace none none rollbackRes commitRes).2 = [.beginTx, .commit] ∧
     (inTxTrace none none rollbackRes commitRes).1 = commitRes) := by
  constructor
  · intro fe
    cases rollbackRes <;> simp [inTxTrace]
  · cases commitRes <;> simp [inTxTrace]

/-- C1: whenever the password hashes successfully, `RegisterAccount`
returns `nil` to the caller — whatever the store holds, in particular
whether or not a user with the email already exists — and every failure of
the background work (the value `startActivation` returns, including
`ErrDuplicateAccount`) goes to the injected error handler, never to the
caller; a synchronous password-hashing failure, and only that, is returned
directly to the caller, before any background work is scheduled. -/
theorem RegisterAccount_caller_always_ok (db : DB) (credsEmail pwdHash : String)
    (genRes : Except GoErr String) (hashRes : String → Except GoErr String)
    (sendRes : EmailMsg → Option GoErr) (hashFailure : GoErr) :
    ((RegisterAccount db credsEmail (.ok pwdHash) genRes hashRes sendRes).ret = none ∧
     (RegisterAccount db credsEmail (.ok pwdHash) genRes hashRes sendRes).handled =
       (startActivation db (registerUser credsEmail pwdHash) genRes hashRes sendRes).ret.toList) ∧
    ((RegisterAccount db credsEmail (.error hashFailure) genRes hashRes sendRes).ret =
       some hashFailure ∧
     (RegisterAccount db credsEmail (.error hashFailure) genRes hashRes sendRes).handled = [] ∧
     (RegisterAccount db credsEmail (.error hashFailure) genRes hashRes sendRes).db = db) := by
  refine ⟨⟨rfl, rfl⟩, rfl, rfl, rfl⟩

theorem runInTx_error_shape {α : Type} (db : DB)
    (f : TxState → TxState × Except GoErr α) (e : GoErr)
    (h : (runInTx db f).2 = .error e) : runInTx db f = (db, .error e) := by
  unfold runInTx at h ⊢
  split at h
  next tx e' heq => simp only at h; simp [heq, h]
  next tx a heq =>
    split at h
    next ce hc => simp only at h; simp [hc, h]
    next db2 hc => simp at h

theorem runInTx_ok_shape {α : Type} (db : DB)
    (f : TxState → TxState × Except GoErr α) (db' : DB) (a : α)
    (h : runInTx db f = (db', .ok a)) :
    ∃ tx2 : TxState, f { db := db, failed := false } = (tx2, .ok a) ∧
      tx2.failed = false ∧ tx2.db = db' := by
  unfold runInTx at h
  split at h
  next tx e' heq => simp at h
  next tx a' heq =>
    split at h
    next ce hc => simp at h
    next db2 hc =>
      simp only [Prod.mk.injEq, Except.ok.injEq] at h
      unfold TxState.commit at hc
      by_cases hfail : tx.failed
      · simp [hfail] at hc
      · simp only [hfail, if_false, Except.ok.injEq] at hc
        refine ⟨tx, by rw [heq, h.2], by simpa using hfail, ?_⟩
        rw [← h.1]
        simpa using hc

theorem createUser_ok_shape (tx : TxState) (u : User) (tx1 : TxState) (u1 : User)
    (h : tx.createUser u = (tx1, .ok u1)) :
    u1 = { u with id := tx.db.users.length + 1,
                  createdAt := tx.db.clock, updatedAt := tx.db.clock } ∧
      tx1 = { tx with db := { tx.db with users := tx.db.users ++ [u1],
                                         clock := tx.db.clock + 1 } } := by
  unfold TxState.createUser at h
  split at h
  next hid => simp at h
  next hid =>
    split at h
    next hdup => simp at h
    next hdup =>
      simp only [Prod.mk.injEq, Except.ok.injEq] at h
      exact ⟨h.2.symm, by rw [← h.1, h.2]⟩

theorem createEmailToken_ok_shape (tx : TxState) (t : EmailToken)
    (tx1 : TxState) (t1 : EmailToken)
    (h : tx.createEmailToken t = (tx1, .ok t1)) :
    t1 = { t with id := tx.db.tokens.length + 1, createdAt := tx.db.clock } ∧
      tx1 = { tx with db := { tx.db with tokens := tx.db.tokens ++ [t1],
                                         clock := tx.db.clock + 1 } } := by
  unfold TxState.createEmailToken at h
  split at h
  next hid => simp at h
  next hid =>
    split at h
    next hfk => simp at h
    next hfk =>
      simp only [Prod.mk.injEq, Except.ok.injEq] at h
      exact ⟨h.2.symm, by rw [← h.1, h.2]⟩

theorem activationTx_ok_shape (tx : TxState) (user : User) (th : String)
    (tx2 : TxState) (u' : User) (t' : EmailToken)
    (h : activationTx tx user th = (tx2, .ok (u', t'))) :
    t'.tokenHash = th ∧ t'.email = user.email ∧
      t'.purpose = TokenPurposeActivate ∧ t'.consumedAt = none ∧
      t' ∈ tx2.db.tokens ∧ tx2.failed = tx.failed := by
  unfold activationTx at h
  split at h
  next u0 heq => simp at h
  next lookupErr heq =>
    split at h
    next hne => simp at h
    next hne =>
      split at h
      next tx1 e1 hcu => simp at h
      next tx1 u1 hcu =>
        split at h
        next txT eT hct => simp at h
        next txT t1 hct =>
          simp only [Prod.mk.injEq, Except.ok.injEq] at h
          obtain ⟨htx2, hu, ht⟩ := h
          obtain ⟨ht1, htxT⟩ := createEmailToken_ok_shape _ _ _ _ hct
          obtain ⟨hu1, htx1⟩ := createUser_ok_shape _ _ _ _ hcu
          subst htx2 hu ht
          refine ⟨by rw [ht1], by rw [ht1], by rw [ht1], by rw [ht1], ?_, ?_⟩
          · rw [htxT]
            simp
          · rw [htxT, htx1]

theorem activationTx_duplicate (tx : TxState) (user : User) (th : String)
    (hdup : ∃ u ∈ tx.db.users, u.email = user.email) :
    activationTx tx user th = (tx, .error .duplicateAccount) := by
  obtain ⟨u0, hmem, hemail⟩ := hdup
  have hsome : (tx.db.users.find? (fun u => u.email == user.email)).isSome := by
    rw [List.find?_isSome]
    exact ⟨u0, hmem, by simp [hemail]⟩
  obtain ⟨u1, hu1⟩ := Option.isSome_iff_exists.mp hsome
  have hfind : tx.findUserByEmail user.email = .ok u1 := by
    unfold TxState.findUserByEmail
    rw [hu1]
  unfold activationTx
  rw [hfind]

theorem runInTx_activation_duplicate (db : DB) (user : User) (th : String)
    (hdup : ∃ u ∈ db.users, u.email = user.email) :
    runInTx db (fun tx => activationTx tx user th) = (db, .error .duplicateAccount) := by
  unfold runInTx
  simp only [activationTx_duplicate { db := db, failed := false } user th (by simpa using hdup)]

theorem runInTx_activation_fresh (db : DB) (user : User) (th : String)
    (hnone : ∀ u ∈ db.users, u.email ≠ user.email) (hid : user.id = 0) :
    runInTx db (fun tx => activationTx tx user th) =
      (activatedDB db user th,
       .ok (activatedUser db user, activationToken db user th)) := by
  have hfind : db.users.find? (fun u => u.email == user.email) = none :=
    List.find?_eq_none.mpr (fun x hx => by simpa using hnone x hx)
  have hany : db.users.any (fun w => w.email == user.email) = false := by
    rw [List.any_eq_false]
    intro x hx
    simpa using hnone x hx
  unfold runInTx activationTx TxState.findUserByEmail TxState.createUser
    TxState.createEmailToken TxState.commit
  simp [hfind, hany, hid, activatedDB, activatedUser, activationToken]

/-- C3: `startActivation` returns `ErrDuplicateAccount` whenever
`FindUserByEmail` finds any existing user with the email — the found user's
activation state is never inspected, so this holds for active and inactive
users alike — and the store is left untouched with no email sent; only when
the lookup reports `NotFound` does the flow proceed, creating the user and
the activation token in one committed transaction. -/
theorem startActivation_duplicate_check (db : DB) (user : User) (tk th : String)
    (hashRes : String → Except GoErr String) (sendRes : EmailMsg → Option GoErr)
    (hhash : hashRes tk = .ok th) :
    ((∃ u ∈ db.users, u.email = user.email) →
      startActivation db user (.ok tk) hashRes sendRes =
        ⟨db, some .duplicateAccount, []⟩) ∧
    ((∀ u ∈ db.users, u.email ≠ user.email) → user.id = 0 →
      runInTx db (fun tx => activationTx tx user th) =
        (activatedDB db user th,
         .ok (activatedUser db user, activationToken db user th)) ∧
      (startActivation db user (.ok tk) hashRes sendRes).db = activatedDB db user th) := by
  constructor
  · intro hdup
    have hrun := runInTx_activation_duplicate db user th hdup
    simp [startActivation, hhash, hrun]
  · intro hnone hid
    have hrun := runInTx_activation_fresh db user th hnone hid
    refine ⟨hrun, ?_⟩
    simp only [startActivation, hhash, hrun]
    cases sendRes ⟨"account-activation", user.email,
        (activationToken db user th).id, tk⟩ <;> rfl

/-- Witness for C3: registering the email of the existing INACTIVE user
yields `ErrDuplicateAccount` and leaves the store untouched, while a fresh
email gets a user and an activation token persisted. -/
theorem startActivation_duplicate_check_witness :
    startActivation dbWithAlice aliceFresh (.ok "raw") (fun s => .ok ("h" ++ s))
        (fun _ => none) =
      ⟨dbWithAlice, some .duplicateAccount, []⟩ ∧
    runInTx emptyDB (fun tx => activationTx tx bobFresh "hraw") =
      ({ users := [{ bobFresh with id := 1 }],
         tokens := [{ id := 1, tokenHash := "hraw", userId := 1,
                      email := "bob@example.com", purpose := TokenPurposeActivate,
                      createdAt := 1, consumedAt := none }],
         clock := 2 },
       .ok ({ bobFresh with id := 1 },
            { id := 1, tokenHash := "hraw", userId := 1,
              email := "bob@example.com", purpose := TokenPurposeActivate,
              createdAt := 1, consumedAt := none })) := by
  constructor
  · exact (startActivation_duplicate_check dbWithAlice aliceFresh "raw" "hraw"
      (fun s => .ok ("h" ++ s)) (fun _ => none) rfl).1
      ⟨aliceInactive, by simp [dbWithAlice], rfl⟩
  · have h := (startActivation_duplicate_check emptyDB bobFresh "raw" "hraw"
      (fun s => .ok ("h" ++ s)) (fun _ => none) rfl).2
      (by intro u hu; simp [emptyDB] at hu) rfl
    have h1 := h.1
    simpa [activatedDB, activatedUser, activationToken, emptyDB, bobFresh] using h1

/-- C9: in `startActivation` the notification `Send` runs only after the
transaction committed: when the transactional phase fails (the
duplicate-account case included) no `Send` happens and the store is
unchanged; when it committed, exactly one `Send` carrying the RAW token is
made, a `Send` failure is returned while the committed user and token stay
persisted, and the stored `EmailToken` record holds the token's hash, which
is all the store ever received. -/
theorem startActivation_send_only_after_commit (db : DB) (user : User)
    (tk th : String) (hashRes : String → Except GoErr String)
    (sendRes : EmailMsg → Option GoErr) (hhash : hashRes tk = .ok th) :
    (∀ e : GoErr, (runInTx db (fun tx => activationTx tx user th)).2 = .error e →
      startActivation db user (.ok tk) hashRes sendRes = ⟨db, some e, []⟩) ∧
    (∀ (db' : DB) (u' : User) (t' : EmailToken),
      runInTx db (fun tx => activationTx tx user th) = (db', .ok (u', t')) →
      (startActivation db user (.ok tk) hashRes sendRes).db = db' ∧
      (startActivation db user (.ok tk) hashRes sendRes).sent =
        [⟨"account-activation", user.email, t'.id, tk⟩] ∧
      (startActivation db user (.ok tk) hashRes sendRes).ret =
        sendRes ⟨"account-activation", user.email, t'.id, tk⟩ ∧
      t'.tokenHash = th ∧ t' ∈ db'.tokens) := by
  constructor
  · intro e he
    have h' := runInTx_error_shape db (fun tx => activationTx tx user th) e he
    simp [startActivation, hhash, h']
  · intro db' u' t' hrun
    obtain ⟨tx2, hf, hfail, hdb⟩ :=
      runInTx_ok_shape db (fun tx => activationTx tx user th) db' (u', t') hrun
    have hshape := activationTx_ok_shape { db := db, failed := false } user th
      tx2 u' t' hf
    refine ⟨?_, ?_, ?_, hshape.1, hdb ▸ hshape.2.2.2.2.1⟩
    · simp only [startActivation, hhash, hrun]
      cases sendRes ⟨"account-activation", user.email, t'.id, tk⟩ <;> rfl
    · simp only [startActivation, hhash, hrun]
      cases sendRes ⟨"account-activation", user.email, t'.id, tk⟩ <;> rfl
    · simp only [startActivation, hhash, hrun]
      cases hs : sendRes ⟨"account-activation", user.email, t'.id, tk⟩ <;> simp [hs]

/-- Witness for C9: on the store already holding the email, the
transactional phase fails and nothing is sent; on the empty store the run
commits, sends exactly one email carrying the raw token "raw" while the
stored token record holds the hash "hraw", and a failing `Send` still
leaves the committed state in place with the `Send` error returned. -/
theorem startActivation_send_only_after_commit_witness :
    startActivation dbWithAlice aliceFresh (.ok "raw") (fun s => .ok ("h" ++ s))
        (fun _ => some (.sendErr 5)) =
      ⟨dbWithAlice, some .duplicateAccount, []⟩ ∧
    ((startActivation emptyDB bobFresh (.ok "raw") (fun s => .ok ("h" ++ s))
        (fun _ => some (.sendErr 5))).db =
      activatedDB emptyDB bobFresh "hraw" ∧
     (startActivation emptyDB bobFresh (.ok "raw") (fun s => .ok ("h" ++ s))
        (fun _ => some (.sendErr 5))).sent =
      [⟨"account-activation", "bob@example.com", 1, "raw"⟩] ∧
     (startActivation emptyDB bobFresh (.ok "raw") (fun s => .ok ("h" ++ s))
        (fun _ => some (.sendErr 5))).ret = some (.sendErr 5)) := by
  constructor
  · have h := (startActivation_send_only_after_commit dbWithAlice aliceFresh
      "raw" "hraw" (fun s => .ok ("h" ++ s)) (fun _ => some (.sendErr 5)) rfl).1
      .duplicateAccount
    exact h (by
      rw [runInTx_activation_duplicate dbWithAlice aliceFresh "hraw"
        ⟨aliceInactive, by simp [dbWithAlice], rfl⟩])
  · have hrun := runInTx_activation_fresh emptyDB bobFresh "hraw"
      (by intro u hu; simp [emptyDB] at hu) rfl
    have h := (startActivation_send_only_after_commit emptyDB bobFresh
      "raw" "hraw" (fun s => .ok ("h" ++ s)) (fun _ => some (.sendErr 5)) rfl).2
      (activatedDB emptyDB bobFresh "hraw")
      (activatedUser emptyDB bobFresh)
      (activationToken emptyDB bobFresh "hraw") hrun
    refine ⟨h.1, ?_, ?_⟩
    · have := h.2.1
      simpa [activationToken, emptyDB, bobFresh] using this
    · have := h.2.2.1
      simpa using this

/-- C2 counterexample: the claim says an empty-but-non-nil `IDs`/`Emails`
set matches no users, but the store's own test "ok, all users, empty
slices" passes empty non-nil sets and gets every user back: on a store with
one user, the all-empty filter returns that user, not the empty slice. -/
theorem findUsers_empty_dimension_matches_all :
    TxState.findUsers { db := dbWithAlice, failed := false }
        { ids := [], emails := [], isActive := none } =
      .ok [aliceInactive] ∧ [aliceInactive] ≠ [] := by
  constructor
  · rfl
  · simp

/-- C2 (amended): `FindUsers` returns exactly the users satisfying the
AND-combination of the non-empty filter dimensions — an empty id/email set
imposes no constraint on its dimension — in creation order (the result is a
sublist of the stored creation-ordered list), and an empty result is a
success, never an error. -/
theorem findUsers_and_semantics (tx : TxState) (f : UserFilter) :
    ∃ l : List User, tx.findUsers f = .ok l ∧
      l.Sublist tx.db.users ∧
      (∀ u : User, u ∈ l ↔ u ∈ tx.db.users ∧
        (f.ids = [] ∨ u.id ∈ f.ids) ∧
        (f.emails = [] ∨ u.email ∈ f.emails) ∧
        (∀ b : Bool, f.isActive = some b → u.isActive = b)) := by
  refine ⟨tx.db.users.filter (fun u => userMatches u f), rfl,
    List.filter_sublist _, ?_⟩
  intro u
  rw [List.mem_filter]
  constructor
  · rintro ⟨hmem, hm⟩
    simp only [userMatches, Bool.and_eq_true, Bool.or_eq_true] at hm
    obtain ⟨⟨hids, hemails⟩, hact⟩ := hm
    refine ⟨hmem, ?_, ?_, ?_⟩
    · rcases hids with hids | hids
      · exact Or.inl (List.isEmpty_iff.mp hids)
      · right
        obtain ⟨i, hi, hieq⟩ := List.any_eq_true.mp hids
        rwa [show i = u.id by simpa using hieq] at hi
    · rcases hemails with hem | hem
      · exact Or.inl (List.isEmpty_iff.mp hem)
      · right
        obtain ⟨e, he, heeq⟩ := List.any_eq_true.mp hem
        rwa [show e = u.email by simpa using heeq] at he
    · intro b hb
      rw [hb] at hact
      simpa using hact
  · rintro ⟨hmem, hids, hemails, hact⟩
    refine ⟨hmem, ?_⟩
    simp only [userMatches, Bool.and_eq_true, Bool.or_eq_true]
    refine ⟨⟨?_, ?_⟩, ?_⟩
    · rcases hids with hids | hids
      · exact Or.inl (List.isEmpty_iff.mpr hids)
      · exact Or.inr (List.any_eq_true.mpr ⟨u.id, hids, by simp⟩)
    · rcases hemails with hem | hem
      · exact Or.inl (List.isEmpty_iff.mpr hem)
      · exact Or.inr (List.any_eq_true.mpr ⟨u.email, hem, by simp⟩)
    · cases hia : f.isActive with
      | none => simp
      | some b => simpa using hact b hia

/-- C5 counterexample: the claim says every operation error puts the `Tx`
into the failed state, so that a subsequent Commit fails with
`TransactionBadState`; but the store's own tests run the non-zero-id,
duplicate-email, missing-foreign-key and not-found failures under the
`inTx` helper, whose final Commit must SUCCEED. Concretely: `CreateUser`
with a non-zero id fails with `ConstraintViolated`, yet Commit on that
transaction succeeds rather than failing with `TransactionBadState`. -/
theorem commit_succeeds_after_failed_create :
    (TxState.createUser { db := emptyDB, failed := false } aliceInactive).2 =
      .error .constraintViolated ∧
    (TxState.createUser { db := emptyDB, failed := false } aliceInactive).1.commit =
      .ok emptyDB := ⟨rfl, rfl⟩

/-- C5 (amended): Commit on a transaction in the failed state fails with
`TransactionBadState` and a transaction not in the failed state commits
successfully — but, per the repository's tests, the only operation error
that enters the failed state is an `UpdateEmailToken` changing an immutable
field of an existing token; the errors the tests drive through the
committing helper (`CreateUser`, `CreateEmailToken`, `UpdateUser` failures
and not-found `UpdateEmailToken`) leave the transaction state, including
its committability, unchanged. -/
theorem txBadState_discipline (tx : TxState) (t old : EmailToken)
    (hfound : tx.db.tokens.find? (fun w => w.id == t.id) = some old)
    (hchanged : old.tokenHash ≠ t.tokenHash ∨ old.userId ≠ t.userId ∨
      old.email ≠ t.email ∨ old.purpose ≠ t.purpose) :
    (∀ tx' : TxState, (tx'.failed = false → tx'.commit = .ok tx'.db) ∧
      (tx'.failed = true → tx'.commit = .error .txBadState)) ∧
    ((tx.updateEmailToken t).1.failed = true ∧
     (tx.updateEmailToken t).2 = .error .constraintViolated ∧
     (tx.updateEmailToken t).1.commit = .error .txBadState) ∧
    (∀ (tx' : TxState) (u : User) (t2 : EmailToken) (e : GoErr),
      ((tx'.createUser u).2 = .error e → (tx'.createUser u).1 = tx') ∧
      ((tx'.updateUser u).2 = .error e → (tx'.updateUser u).1 = tx') ∧
      ((tx'.createEmailToken t2).2 = .error e → (tx'.createEmailToken t2).1 = tx') ∧
      ((tx'.updateEmailToken t2).2 = .error .notFound →
        (tx'.updateEmailToken t2).1 = tx')) := by
  have hcond : (old.tokenHash != t.tokenHash || old.userId != t.userId ||
      old.email != t.email || old.purpose != t.purpose) = true := by
    rcases hchanged with h | h | h | h <;> simp [h]
  have hupd : tx.updateEmailToken t =
      ({ tx with failed := true }, .error .constraintViolated) := by
    unfold TxState.updateEmailToken
    rw [hfound]
    simp only [hcond, if_true]
  refine ⟨?_, ?_, ?_⟩
  · intro tx'
    constructor <;> intro hf <;> simp [TxState.commit, hf]
  · rw [hupd]
    exact ⟨rfl, rfl, rfl⟩
  · intro tx' u t2 e
    refine ⟨?_, ?_, ?_, ?_⟩
    · intro he
      by_cases h1 : (u.id != 0) = true
      · simp [TxState.createUser, h1]
      · by_cases h2 : (tx'.db.users.any fun w => w.email == u.email) = true
        · simp [TxState.createUser, h1, h2]
        · simp [TxState.createUser, h1, h2] at he
    · intro he
      cases hf : tx'.db.users.find? (fun w => w.id == u.id) with
      | none => simp [TxState.updateUser, hf]
      | some w =>
        by_cases h2 : (tx'.db.users.any fun w => w.id != u.id && w.email == u.email) = true
        · simp [TxState.updateUser, hf, h2]
        · simp [TxState.updateUser, hf, h2] at he
    · intro he
      by_cases h1 : (t2.id != 0) = true
      · simp [TxState.createEmailToken, h1]
      · by_cases h2 : (!tx'.db.users.any fun u => u.id == t2.userId) = true
        · simp [TxState.createEmailToken, h1, h2]
        · simp [TxState.createEmailToken, h1, h2] at he
    · intro he
      cases hf : tx'.db.tokens.find? (fun w => w.id == t2.id) with
      | none => simp [TxState.updateEmailToken, hf]
      | some w =>
        by_cases h2 : (w.tokenHash != t2.tokenHash || w.userId != t2.userId ||
            w.email != t2.email || w.purpose != t2.purpose) = true
        · simp [TxState.updateEmailToken, hf, h2] at he
        · simp [TxState.updateEmailToken, hf, h2] at he

/-- Witness for C5 (amended): on a store with a persisted token, updating
the token's purpose fails, drives the transaction into the failed state,
and the subsequent Commit fails with `TransactionBadState`. -/
theorem txBadState_discipline_witness :
    (TxState.updateEmailToken { db := dbWithToken, failed := false }
        { aliceToken with purpose := "other" }).1.failed = true ∧
    (TxState.updateEmailToken { db := dbWithToken, failed := false }
        { aliceToken with purpose := "other" }).1.commit = .error .txBadState := by
  have h := txBadState_discipline { db := dbWithToken, failed := false }
    { aliceToken with purpose := "other" } aliceToken rfl
    (by simp [aliceToken, TokenPurposeActivate])
  exact ⟨h.2.1.1, h.2.1.2.2⟩

/-- C6: `UpdateEmailToken` on a persisted token fails with
`ConstraintViolated` — leaving the stored data untouched — whenever the
update changes any of `tokenHash`, `userId`, `email` or `purpose`; when all
four are unchanged the update succeeds and the stored record is the old one
with only `consumedAt` replaced: those four fields are immutable after
creation. -/
theorem updateEmailToken_immutables (tx : TxState) (t old : EmailToken)
    (hfound : tx.db.tokens.find? (fun w => w.id == t.id) = some old) :
    ((old.tokenHash ≠ t.tokenHash ∨ old.userId ≠ t.userId ∨
        old.email ≠ t.email ∨ old.purpose ≠ t.purpose) →
      (tx.updateEmailToken t).2 = .error .constraintViolated ∧
      (tx.updateEmailToken t).1.db = tx.db) ∧
    (old.tokenHash = t.tokenHash → old.userId = t.userId →
      old.email = t.email → old.purpose = t.purpose →
      (tx.updateEmailToken t).2 = .ok { old with consumedAt := t.consumedAt } ∧
      (tx.updateEmailToken t).1.db.tokens =
        tx.db.tokens.map
          (fun w => if w.id == t.id then { old with consumedAt := t.consumedAt } else w) ∧
      (tx.updateEmailToken t).1.failed = tx.failed) := by
  have hid : old.id = t.id := by
    have := List.find?_some hfound
    simpa using this
  constructor
  · intro hchanged
    have hcond : (old.tokenHash != t.tokenHash || old.userId != t.userId ||
        old.email != t.email || old.purpose != t.purpose) = true := by
      rcases hchanged with h | h | h | h <;> simp [h]
    unfold TxState.updateEmailToken
    rw [hfound]
    simp only [hcond, if_true]
    simp
  · intro h1 h2 h3 h4
    have hcond : (old.tokenHash != t.tokenHash || old.userId != t.userId ||
        old.email != t.email || old.purpose != t.purpose) = false := by
      simp [h1, h2, h3, h4]
    have hold : { t with createdAt := old.createdAt } =
        { old with consumedAt := t.consumedAt } := by
      cases old
      cases t
      simp_all
    unfold TxState.updateEmailToken
    rw [hfound]
    simp only [hcond, Bool.false_eq_true, if_false, hold]
    simp

/-- Witness for C6: changing the sample token's email fails with
`ConstraintViolated`, while setting only `consumedAt` succeeds and persists
exactly that change. -/
theorem updateEmailToken_immutables_witness :
    (TxState.updateEmailToken { db := dbWithToken, failed := false }
        { aliceToken with email := "jacob@example.com" }).2 =
      .error .constraintViolated ∧
    (TxState.updateEmailToken { db := dbWithToken, failed := false }
        { aliceToken with consumedAt := some 9 }).2 =
      .ok { aliceToken with consumedAt := some 9 } ∧
    (TxState.updateEmailToken { db := dbWithToken, failed := false }
        { aliceToken with consumedAt := some 9 }).1.db.tokens =
      [{ aliceToken with consumedAt := some 9 }] := by
  have h1 := (updateEmailToken_immutables { db := dbWithToken, failed := false }
    { aliceToken with email := "jacob@example.com" } aliceToken rfl).1
    (by simp [aliceToken])
  have h2 := (updateEmailToken_immutables { db := dbWithToken, failed := false }
    { aliceToken with consumedAt := some 9 } aliceToken rfl).2
    rfl rfl rfl rfl
  refine ⟨h1.1, h2.1, ?_⟩
  rw [h2.2.1]
  rfl

/-- C7: `CreateUser` and `CreateEmailToken` fail with `ConstraintViolated`
on a non-zero id; `CreateUser` fails with `ConstraintViolated` when any
user — active or not — already holds the email; `CreateEmailToken` fails
with `ConstraintViolated` when its `userId` references no existing user; on
success the store assigns the id and the timestamps into the passed-in
record and persists it. -/
theorem create_constraints (tx : TxState) (u : User) (t : EmailToken) :
    (u.id ≠ 0 → (tx.createUser u).2 = .error .constraintViolated) ∧
    ((∃ w ∈ tx.db.users, w.email = u.email) →
      (tx.createUser u).2 = .error .constraintViolated) ∧
    (u.id = 0 → (∀ w ∈ tx.db.users, w.email ≠ u.email) →
      tx.createUser u =
        ({ tx with db := { tx.db with
                             users := tx.db.users ++ [createdUser tx u],
                             clock := tx.db.clock + 1 } },
         .ok (createdUser tx u))) ∧
    (t.id ≠ 0 → (tx.createEmailToken t).2 = .error .constraintViolated) ∧
    ((∀ w ∈ tx.db.users, w.id ≠ t.userId) →
      (tx.createEmailToken t).2 = .error .constraintViolated) ∧
    (t.id = 0 → (∃ w ∈ tx.db.users, w.id = t.userId) →
      tx.createEmailToken t =
        ({ tx with db := { tx.db with
                             tokens := tx.db.tokens ++ [createdToken tx t],
                             clock := tx.db.clock + 1 } },
         .ok (createdToken tx t))) := by
  refine ⟨?_, ?_, ?_, ?_, ?_, ?_⟩
  · intro hzero
    have h1 : (u.id != 0) = true := by simpa using hzero
    simp [TxState.createUser, h1]
  · intro hdup
    obtain ⟨w, hw, hweq⟩ := hdup
    have h2 : (tx.db.users.any fun w => w.email == u.email) = true :=
      List.any_eq_true.mpr ⟨w, hw, by simp [hweq]⟩
    by_cases h1 : (u.id != 0) = true
    · simp [TxState.createUser, h1]
    · simp [TxState.createUser, h1, h2]
  · intro hzero hnone
    have h1 : (u.id != 0) = false := by simpa using hzero
    have h2 : (tx.db.users.any fun w => w.email == u.email) = false := by
      rw [List.any_eq_false]
      intro w hw
      simpa using hnone w hw
    simp [TxState.createUser, h1, h2, createdUser]
  · intro hzero
    have h1 : (t.id != 0) = true := by simpa using hzero
    simp [TxState.createEmailToken, h1]
  · intro hnofk
    have h2 : (tx.db.users.any fun w => w.id == t.userId) = false := by
      rw [List.any_eq_false]
      intro w hw
      simpa using hnofk w hw
    by_cases h1 : (t.id != 0) = true
    · simp [TxState.createEmailToken, h1]
    · simp [TxState.createEmailToken, h1, h2]
  · intro hzero hfk
    obtain ⟨w, hw, hweq⟩ := hfk
    have h1 : (t.id != 0) = false := by simpa using hzero
    have h2 : (tx.db.users.any fun w => w.id == t.userId) = true :=
      List.any_eq_true.mpr ⟨w, hw, by simp [hweq]⟩
    simp [TxState.createEmailToken, h1, h2, createdToken]

/-- Witness for C7: on the sample store, creating a user with id 1 and
creating a user with the existing email both fail with
`ConstraintViolated`, as do an email token with id 1 and one referencing
the absent user 101; a fresh user and a token for the existing user are
persisted with assigned id and timestamps. -/
theorem create_constraints_witness :
    (TxState.createUser { db := dbWithAlice, failed := false } aliceInactive).2 =
      .error .constraintViolated ∧
    (TxState.createUser { db := dbWithAlice, failed := false } aliceFresh).2 =
      .error .constraintViolated ∧
    (TxState.createUser { db := dbWithAlice, failed := false } bobFresh).2 =
      .ok { bobFresh with id := 2, createdAt := 1, updatedAt := 1 } ∧
    (TxState.createEmailToken { db := dbWithAlice, failed := false }
        { aliceToken with id := 1 }).2 = .error .constraintViolated ∧
    (TxState.createEmailToken { db := dbWithAlice, failed := false }
        { aliceToken with id := 0, userId := 101 }).2 = .error .constraintViolated ∧
    (TxState.createEmailToken { db := dbWithAlice, failed := false }
        { aliceToken with id := 0 }).2 =
      .ok { aliceToken with id := 1, createdAt := 1 } := by
  refine ⟨?_, ?_, ?_, ?_, ?_, ?_⟩
  · exact (create_constraints { db := dbWithAlice, failed := false }
      aliceInactive aliceToken).1 (by simp [aliceInactive])
  · exact (create_constraints { db := dbWithAlice, failed := false }
      aliceFresh aliceToken).2.1
      ⟨aliceInactive, by simp [dbWithAlice], rfl⟩
  · have h := (create_constraints { db := dbWithAlice, failed := false }
      bobFresh aliceToken).2.2.1 rfl
      (by intro w hw; simp [dbWithAlice] at hw; simp [hw, aliceInactive, bobFresh])
    rw [h]
    rfl
  · exact (create_constraints { db := dbWithAlice, failed := false }
      bobFresh { aliceToken with id := 1 }).2.2.2.1 (by simp [aliceToken])
  · exact (create_constraints { db := dbWithAlice, failed := false }
      bobFresh { aliceToken with id := 0, userId := 101 }).2.2.2.2.1
      (by intro w hw; simp [dbWithAlice] at hw; simp [hw, aliceInactive])
  · have h := (create_constraints { db := dbWithAlice, failed := false }
      bobFresh { aliceToken with id := 0 }).2.2.2.2.2 rfl
      ⟨aliceInactive, by simp [dbWithAlice], rfl⟩
    rw [h]
    rfl

/-- C8: `UpdateUser` and `UpdateEmailToken` fail with `NotFound`, touching
nothing, when no record with the id exists; a successful `UpdateUser` (no
email conflict) stores the passed record with `updatedAt` bumped to the
current time and `createdAt` kept from the stored row, while every other
user and all email tokens stay unchanged. -/
theorem update_notFound_and_frame (tx : TxState) (u old : User) (t : EmailToken) :
    (tx.db.users.find? (fun w => w.id == u.id) = none →
      (tx.updateUser u).2 = .error .notFound ∧ (tx.updateUser u).1 = tx) ∧
    (tx.db.tokens.find? (fun w => w.id == t.id) = none →
      (tx.updateEmailToken t).2 = .error .notFound ∧ (tx.updateEmailToken t).1 = tx) ∧
    (tx.db.users.find? (fun w => w.id == u.id) = some old →
      (tx.db.users.any fun w => w.id != u.id && w.email == u.email) = false →
      (tx.updateUser u).2 = .ok (updatedUser tx u old) ∧
      (tx.updateUser u).1.db.users =
        tx.db.users.map (fun w => if w.id == u.id then updatedUser tx u old else w) ∧
      (tx.updateUser u).1.db.tokens = tx.db.tokens ∧
      (updatedUser tx u old).createdAt = old.createdAt ∧
      (updatedUser tx u old).updatedAt = tx.db.clock ∧
      (updatedUser tx u old).email = u.email ∧
      (updatedUser tx u old).passwordHash = u.passwordHash ∧
      (updatedUser tx u old).isActive = u.isActive) := by
  refine ⟨?_, ?_, ?_⟩
  · intro hf
    constructor <;> simp [TxState.updateUser, hf]
  · intro hf
    constructor <;> simp [TxState.updateEmailToken, hf]
  · intro hf hnoconf
    refine ⟨?_, ?_, ?_, rfl, rfl, rfl, rfl, rfl⟩ <;>
      simp [TxState.updateUser, hf, hnoconf, updatedUser]

/-- Witness for C8: updating the absent user 2 and the absent token 2 fail
with `NotFound`; updating the stored user's password hash and activation
flag succeeds, bumps `updatedAt` to the current clock value 2 and keeps
`createdAt` at 0, with the token store untouched. -/
theorem update_notFound_and_frame_witness :
    (TxState.updateUser { db := dbWithToken, failed := false }
        { aliceInactive with id := 2 }).2 = .error .notFound ∧
    (TxState.updateEmailToken { db := dbWithToken, failed := false }
        { aliceToken with id := 2 }).2 = .error .notFound ∧
    (TxState.updateUser { db := dbWithToken, failed := false }
        { aliceInactive with passwordHash := "ph9", isActive := true }).2 =
      .ok { aliceInactive with
            passwordHash := "ph9", isActive := true,
            createdAt := 0, updatedAt := 2 } ∧
    (TxState.updateUser { db := dbWithToken, failed := false }
        { aliceInactive with passwordHash := "ph9", isActive := true }).1.db.tokens =
      [aliceToken] := by
  have h := update_notFound_and_frame { db := dbWithToken, failed := false }
    { aliceInactive with id := 2 } aliceInactive { aliceToken with id := 2 }
  have h2 := update_notFound_and_frame { db := dbWithToken, failed := false }
    { aliceInactive with passwordHash := "ph9", isActive := true } aliceInactive
    aliceToken
  refine ⟨(h.1 rfl).1, (h.2.1 rfl).1, ?_, ?_⟩
  · have := (h2.2.2 rfl rfl).1
    rw [this]
    rfl
  · have := (h2.2.2 rfl rfl).2.2.1
    rw [this]
    rfl
